import Mathlib

/-!
Shallow embedding of `main.py` (FastAPI product-catalog scraper).

Modelling conventions:
* Prices are exact rationals (`Rat`); the source stores Python floats in Redis
  via `str(price)` and reads them back with `float(...)`, an exact round trip,
  and compares with `!=` (exact equality, no tolerance).
* The Redis cache is an association list `List (String × Rat)`; `SET` is an
  upsert, `GET` returns the entry for the exact key.
* External collaborators (httpx, BeautifulSoup, the image host, the logger)
  are parameters of the run, collected in `Env`: `fetchOutcome url proxy a` is
  the outcome of attempt `a` of `GET url`, `soup html` is the list of
  `.product-item` elements BeautifulSoup finds in `html`, `imgGet url` is the
  image download outcome, `notifyResult msg` the notifier outcome.
* Python exceptions are `Except String`; an exception aborts the surrounding
  computation but mutations already performed on Redis persist, so stateful
  functions return the state reached so far next to the `Except`.
* The `while True` pagination loop is given explicit fuel; `none` means the
  fuel ran out before the loop terminated.  `RunOut.visited` counts the pages
  whose fetch succeeded and whose HTML was handed to the parser.
-/

namespace Scraper

/-- Characters removed by Python `str.strip()` with no argument (ASCII
whitespace, the cases arising in HTML text). -/
def isSpaceChar (c : Char) : Bool :=
  c = ' ' || c = '\t' || c = '\n' || c = '\r'

/-- Models Python `str.strip()`: leading and trailing whitespace removed. -/
def pyStrip (s : String) : String :=
  ⟨(((s.toList.dropWhile isSpaceChar).reverse).dropWhile isSpaceChar).reverse⟩

/-- Models Python `str.replace(old, new)` for the one-character patterns the
source uses (`replace('$', '')` and `replace(' ', '_')`): every occurrence of
`a` is dropped (`b = none`) or substituted (`b = some d`). -/
def pyReplaceChar (a : Char) (b : Option Char) (s : String) : String :=
  ⟨s.toList.foldr
    (fun c acc =>
      if c = a then (match b with | some d => d :: acc | none => acc) else c :: acc) []⟩

/-- Models Python `str.lower()` on ASCII letters. -/
def pyLower (s : String) : String :=
  ⟨s.toList.map (fun c => if 'A' ≤ c ∧ c ≤ 'Z' then Char.ofNat (c.toNat + 32) else c)⟩

/-- Value of a run of decimal digit characters, as Python reads them. -/
def digitsVal (cs : List Char) : Nat :=
  cs.foldl (fun a c => a * 10 + (c.toNat - 48)) 0

/-- All characters are decimal digits. -/
def allDigits (cs : List Char) : Bool :=
  cs.all Char.isDigit

/-- Unsigned part of a Python `float(...)` literal: digits with at most one
decimal point, at least one digit overall (`"5."` and `".5"` are accepted).
Returns numerator and denominator of the exact decimal value. -/
def parseDecimalChars (cs : List Char) : Option (Nat × Nat) :=
  let ip := cs.takeWhile (fun c => c ≠ '.')
  let rest := cs.dropWhile (fun c => c ≠ '.')
  match rest with
  | [] =>
      if !ip.isEmpty && allDigits ip then some (digitsVal ip, 1) else none
  | _ :: fp =>
      if (!ip.isEmpty || !fp.isEmpty) && allDigits ip && allDigits fp then
        some (digitsVal ip * 10 ^ fp.length + digitsVal fp, 10 ^ fp.length)
      else none

/-- Models CPython `float(s)` on plain decimal literals: surrounding
whitespace is ignored, an optional single leading sign, then digits with at
most one point.  Exotic forms (exponents, `inf`, `nan`) are outside the pages
this development considers.  `none` models a raised `ValueError`. -/
def pyFloat (s : String) : Option Rat :=
  match (pyStrip s).toList with
  | '-' :: rest => (parseDecimalChars rest).map (fun p => mkRat (-(p.1 : Int)) p.2)
  | '+' :: rest => (parseDecimalChars rest).map (fun p => mkRat p.1 p.2)
  | cs => (parseDecimalChars cs).map (fun p => mkRat p.1 p.2)

/-- `Product` pydantic model (main.py lines 35-38). -/
structure Product where
  product_title : String
  product_price : Rat
  path_to_image : String
deriving DecidableEq, Repr

/-- `ScrapingSettings` pydantic model (main.py lines 30-33).  `page_limit` is
`Optional[int]` with no positivity validation, hence `Option Int`. -/
structure ScrapingSettings where
  page_limit : Option Int := none
  proxy : Option String := none
  target_url : String
deriving DecidableEq, Repr

/-- One `.product-item` element as BeautifulSoup exposes it to lines 120-122:
`titleEl` is the text of `select_one('.product-title')` (`none` when the
selector finds nothing), likewise `priceEl` for `.product-price`; `imgSrc` is
`select_one('img')['src']` (`none` when the element or attribute is absent). -/
structure RawItem where
  titleEl : Option String
  priceEl : Option String
  imgSrc : Option String
deriving DecidableEq, Repr

/-- `CacheManager.get_cached_price` (main.py lines 81-83): the price stored
under the exact title key, if any. -/
def get_cached_price (cache : List (String × Rat)) (title : String) : Option Rat :=
  match cache.find? (fun e => e.1 == title) with
  | some e => some e.2
  | none => none

/-- `CacheManager.set_cached_price` (main.py lines 85-86): Redis `SET`, an
upsert on the exact title key. -/
def set_cached_price : List (String × Rat) → String → Rat → List (String × Rat)
  | [], t, q => [(t, q)]
  | e :: rest, t, q =>
      if e.1 == t then (t, q) :: rest else e :: set_cached_price rest t q

/-- Image path derivation (main.py line 125):
`f"images/{title.lower().replace(' ', '_')}.jpg"`. -/
def imagePathOf (title : String) : String :=
  "images/" ++ (pyReplaceChar ' ' (some '_') (pyLower title)) ++ ".jpg"

/-- The `Product` built for an accepted candidate (main.py lines 131-135). -/
def recordOf (t : String) (q : Rat) : Product :=
  { product_title := t, product_price := q, path_to_image := imagePathOf t }

/-- Extraction of one item (main.py lines 120-122), in source order: title
element (AttributeError when missing), price element (AttributeError when
missing), `float` conversion of the price text after `strip()` and
`replace('$','')` — note: removes every dollar sign, accepts negatives —
(ValueError when unparseable), then the image source (TypeError when
missing).  Any error aborts the whole page, as a Python exception does. -/
def extractItem (it : RawItem) : Except String (String × Rat × String) :=
  match it.titleEl with
  | none => .error "AttributeError: NoneType object has no attribute text"
  | some t0 =>
    match it.priceEl with
    | none => .error "AttributeError: NoneType object has no attribute text"
    | some p0 =>
      match pyFloat (pyReplaceChar '$' none (pyStrip p0)) with
      | none => .error "ValueError: could not convert string to float"
      | some q =>
        match it.imgSrc with
        | none => .error "TypeError: NoneType object is not subscriptable"
        | some u => .ok (pyStrip t0, q, u)

/-- Whether extraction of the item succeeds. -/
def extOk (it : RawItem) : Bool :=
  match extractItem it with
  | .ok _ => true
  | .error _ => false

/-- Title extracted from a well-formed item (junk value on malformed ones). -/
def extTitle (it : RawItem) : String :=
  match extractItem it with
  | .ok (t, _, _) => t
  | .error _ => ""

/-- Price extracted from a well-formed item (junk value on malformed ones). -/
def extPrice (it : RawItem) : Rat :=
  match extractItem it with
  | .ok (_, q, _) => q
  | .error _ => 0

/-- Image URL extracted from a well-formed item. -/
def extUrl (it : RawItem) : String :=
  match extractItem it with
  | .ok (_, _, u) => u
  | .error _ => ""

/-- Mutable state shared with the outside world during a run: the Redis price
cache, and the image files written so far (path, bytes). -/
structure ScrapeState where
  cache : List (String × Rat)
  downloads : List (String × String)
deriving DecidableEq, Repr

/-- The external collaborators of one run. -/
structure Env where
  fetchOutcome : String → Option String → Nat → Except String String
  soup : String → List RawItem
  imgGet : String → Except String String
  notifyResult : String → Except String Unit

instance {ε α : Type} [DecidableEq ε] [DecidableEq α] : DecidableEq (Except ε α) := fun x y =>
  match x, y with
  | .error a, .error b =>
      if h : a = b then .isTrue (by rw [h]) else .isFalse (by simp [h])
  | .error _, .ok _ => .isFalse (by simp)
  | .ok _, .error _ => .isFalse (by simp)
  | .ok a, .ok b =>
      if h : a = b then .isTrue (by rw [h]) else .isFalse (by simp [h])

/-- Body of the loop of `WebScraper.parse_product` (main.py lines 119-143).
Per item, in source order: extract title/price/image (an exception aborts the
page, keeping all state mutations already made), compute the image path, then
the change filter: if the cached price differs from the observed one
(`cached_price != price`, with `None != q` true), append a record, upsert the
cache entry, and download the image (a failing download raises, after the
cache upsert has already happened).  Otherwise the item leaves no trace. -/
def parseStep (env : Env) : List RawItem → List Product → ScrapeState →
    ScrapeState × Except String (List Product)
  | [], acc, st => (st, .ok acc)
  | it :: rest, acc, st =>
    match extractItem it with
    | .error e => (st, .error e)
    | .ok (t, q, u) =>
      if get_cached_price st.cache t ≠ some q then
        let st1 : ScrapeState :=
          { cache := set_cached_price st.cache t q, downloads := st.downloads }
        match env.imgGet u with
        | .error e => (st1, .error e)
        | .ok content =>
            parseStep env rest (acc ++ [recordOf t q])
              { st1 with downloads := st1.downloads ++ [(imagePathOf t, content)] }
      else parseStep env rest acc st

/-- `WebScraper.parse_product` (main.py lines 113-144), applied to the items
BeautifulSoup finds on the page. -/
def parse_product (env : Env) (items : List RawItem) (st : ScrapeState) :
    ScrapeState × Except String (List Product) :=
  parseStep env items [] st

/-- Events observable from `scrape_with_retry`: an HTTP attempt with its
index, and an `asyncio.sleep` backoff. -/
inductive FetchEvent where
  | attempt (i : Nat)
  | sleep (secs : Nat)
deriving DecidableEq, Repr

/-- main.py line 26. -/
def MAX_RETRIES : Nat := 3

/-- main.py line 27 (seconds). -/
def RETRY_DELAY : Nat := 5

/-- The `for attempt in range(MAX_RETRIES)` loop of
`WebScraper.scrape_with_retry` (main.py lines 100-111) over the remaining
attempt indices.  Success returns immediately; a failure on the last index
re-raises it; otherwise sleep `RETRY_DELAY` and continue.  `none` is the
Python `None` returned if the loop body never runs. -/
def retryLoop (outcome : Nat → Except String String) :
    List Nat → List FetchEvent × Option (Except String String)
  | [] => ([], none)
  | a :: rest =>
    match outcome a with
    | .ok s => ([.attempt a], some (.ok s))
    | .error e =>
      if a = MAX_RETRIES - 1 then ([.attempt a], some (.error e))
      else
        let r := retryLoop outcome rest
        (.attempt a :: .sleep RETRY_DELAY :: r.1, r.2)

/-- `WebScraper.scrape_with_retry` (main.py lines 100-111), parametrised by
the per-attempt outcome of `GET url`.  Returns the event trace and the
result. -/
def scrape_with_retry (outcome : Nat → Except String String) :
    List FetchEvent × Option (Except String String) :=
  retryLoop outcome (List.range MAX_RETRIES)

/-- The guard `settings.page_limit and page > settings.page_limit`
(main.py line 151): Python truthiness makes `None` and `0` skip the
comparison, while any nonzero (also negative) limit is compared. -/
def pageLimitHit (settings : ScrapingSettings) (page : Nat) : Bool :=
  match settings.page_limit with
  | none => false
  | some l => l != 0 && decide (l < (page : Int))

/-- `f"{settings.target_url}?page={page}"` (main.py line 154). -/
def urlFor (settings : ScrapingSettings) (page : Nat) : String :=
  settings.target_url ++ "?page=" ++ toString page

/-- Observable outcome of one `scrape_catalog` call: the external state
reached, the number of pages whose HTML was fetched and parsed, and the
returned product list or the propagated exception. -/
structure RunOut where
  state : ScrapeState
  visited : Nat
  result : Except String (List Product)
deriving DecidableEq, Repr

/-- The `while True` loop of `WebScraper.scrape_catalog` (main.py lines
150-162), with explicit fuel.  Each iteration: the page-limit guard, a
fetched-with-retry page (a propagated fetch failure aborts the run), parsing
plus change-filtering of the page (a propagated parse or download exception
aborts the run, keeping cache mutations), then the
`if not products: break` check on the *post-filter accepted* records, and
otherwise `all_products.extend(products); page += 1`. -/
def scrapeGo (env : Env) (settings : ScrapingSettings) :
    Nat → Nat → List Product → ScrapeState → Nat → Option RunOut
  | 0, _, _, _, _ => none
  | fuel + 1, page, acc, st, visited =>
    if pageLimitHit settings page then
      some ⟨st, visited, .ok acc⟩
    else
      match scrape_with_retry
          (fun a => env.fetchOutcome (urlFor settings page) settings.proxy a) with
      | (_, none) => some ⟨st, visited, .error "TypeError: NoneType is not valid markup"⟩
      | (_, some (.error e)) => some ⟨st, visited, .error e⟩
      | (_, some (.ok html)) =>
        match parse_product env (env.soup html) st with
        | (st2, .error e) => some ⟨st2, visited + 1, .error e⟩
        | (st2, .ok products) =>
          if products.isEmpty then some ⟨st2, visited + 1, .ok acc⟩
          else scrapeGo env settings fuel (page + 1) (acc ++ products) st2 (visited + 1)

/-- `WebScraper.scrape_catalog` (main.py lines 146-164): the loop started at
page 1 with no accumulated products. -/
def scrape_catalog (env : Env) (settings : ScrapingSettings) (st : ScrapeState)
    (fuel : Nat) : Option RunOut :=
  scrapeGo env settings fuel 1 [] st 0

/-- Observable outcome of one `POST /scrape` request: the external state, the
contents written to the product store by `save_products` (`none` when the
save was never reached this run), and the HTTP-level result — `ok n` for
`{"status": "success", "products_processed": n}`, `error detail` for the
`HTTPException(500, detail)` raised from the blanket `except`. -/
structure EndpointOut where
  state : ScrapeState
  store : Option (List Product)
  response : Except String Nat
deriving DecidableEq, Repr

/-- main.py line 192. -/
def completionMessage (n : Nat) : String :=
  "Scraping completed. " ++ toString n ++ " products were processed."

/-- The `scrape_products` endpoint (main.py lines 173-199): run
`scrape_catalog`; on success `save_products` the full list (full replace),
then notify; any exception anywhere is converted by the blanket `except` into
a single 500 response carrying `str(e)`, with no error-kind distinction. -/
def scrape_products (env : Env) (settings : ScrapingSettings) (st0 : ScrapeState)
    (fuel : Nat) : Option EndpointOut :=
  match scrape_catalog env settings st0 fuel with
  | none => none
  | some out =>
    match out.result with
    | .error e => some ⟨out.state, none, .error e⟩
    | .ok products =>
      match env.notifyResult (completionMessage products.length) with
      | .error e => some ⟨out.state, some products, .error e⟩
      | .ok _ => some ⟨out.state, some products, .ok products.length⟩

/-- Pages `start, start+1, …, start+n-1` of a catalog. -/
def pagesSlice (pages : Nat → List RawItem) : Nat → Nat → List (List RawItem)
  | _, 0 => []
  | start, n + 1 => pages start :: pagesSlice pages (start + 1) n

/-- Titles extracted from the items of one page. -/
def pageTitles (items : List RawItem) : List String :=
  items.map extTitle

/-- (title, price) pairs extracted from the items of one page. -/
def pagePairs (items : List RawItem) : List (String × Rat) :=
  items.map (fun it => (extTitle it, extPrice it))

/-- The records built for the items of one page, when all are accepted. -/
def pageRecords (items : List RawItem) : List Product :=
  items.map (fun it => recordOf (extTitle it) (extPrice it))

/-- All titles on pages `start … start+n-1`, in crawl order. -/
def sliceTitles (pages : Nat → List RawItem) (start n : Nat) : List String :=
  ((pagesSlice pages start n).map pageTitles).flatten

/-- All (title, price) pairs on pages `start … start+n-1`, in crawl order. -/
def slicePairs (pages : Nat → List RawItem) (start n : Nat) : List (String × Rat) :=
  ((pagesSlice pages start n).map pagePairs).flatten

/-- All records from pages `start … start+n-1`, in crawl order. -/
def sliceRecords (pages : Nat → List RawItem) (start n : Nat) : List Product :=
  ((pagesSlice pages start n).map pageRecords).flatten

/-- First-defined choice between two cache lookups. -/
def firstSome (a b : Option Rat) : Option Rat :=
  match a with
  | some x => some x
  | none => b

/- Concrete fixtures used by witnesses and counterexamples. -/

/-- A well-formed catalog item: Widget at $9.99. -/
def itemW : RawItem := { titleEl := some "Widget", priceEl := some "$9.99", imgSrc := some "img1" }

/-- A well-formed catalog item: Gadget at $19.99. -/
def itemG : RawItem := { titleEl := some "Gadget", priceEl := some "$19.99", imgSrc := some "img2" }

/-- A malformed catalog item: no `.product-title` element. -/
def itemBad : RawItem := { titleEl := none, priceEl := some "$5", imgSrc := some "img3" }

/-- A two-page catalog: page 1 = [Widget], page 2 = [Gadget], page 3 empty. -/
def pagesA : Nat → List RawItem :=
  fun p => if p = 1 then [itemW] else if p = 2 then [itemG] else []

/-- A catalog with candidates on every page: page 1 = [Widget], all later
pages = [Gadget]. -/
def pagesB : Nat → List RawItem :=
  fun p => if p = 1 then [itemW] else [itemG]

/-- Request settings with no page limit. -/
def settingsA : ScrapingSettings :=
  { page_limit := none, proxy := none, target_url := "http://cat" }

/-- Request settings with page limit 2. -/
def settingsB : ScrapingSettings :=
  { page_limit := some 2, proxy := none, target_url := "http://cat" }

/-- Decodes the page number back out of a fetched URL of `settingsA`/`settingsB`. -/
def pageOfUrl (h : String) : Nat :=
  if h = "http://cat?page=1" then 1 else if h = "http://cat?page=2" then 2
  else if h = "http://cat?page=3" then 3 else 0

/-- Healthy environment over the catalog `pagesA`: every fetch returns the
page, every image downloads, the notifier succeeds. -/
def envA : Env :=
  { fetchOutcome := fun url _ _ => .ok url
    soup := fun h => pagesA (pageOfUrl h)
    imgGet := fun _ => .ok "bytes"
    notifyResult := fun _ => .ok () }

/-- Healthy environment over the never-ending catalog `pagesB`. -/
def envB : Env :=
  { fetchOutcome := fun url _ _ => .ok url
    soup := fun h => pagesB (pageOfUrl h)
    imgGet := fun _ => .ok "bytes"
    notifyResult := fun _ => .ok () }

/-- Like `envA` but every image download fails. -/
def envD : Env :=
  { fetchOutcome := fun url _ _ => .ok url
    soup := fun h => pagesA (pageOfUrl h)
    imgGet := fun _ => .error "download failed"
    notifyResult := fun _ => .ok () }

/-- Environment in which every fetch attempt fails. -/
def envF : Env :=
  { fetchOutcome := fun _ _ _ => .error "ConnectionError"
    soup := fun _ => []
    imgGet := fun _ => .ok "bytes"
    notifyResult := fun _ => .ok () }

/-- Like `envA` but the notifier raises. -/
def envN : Env :=
  { fetchOutcome := fun url _ _ => .ok url
    soup := fun h => pagesA (pageOfUrl h)
    imgGet := fun _ => .ok "bytes"
    notifyResult := fun _ => .error "notify boom" }

/-! ### Helper lemmas -/

theorem get_set_same (c : List (String × Rat)) (t : String) (q : Rat) :
    get_cached_price (set_cached_price c t q) t = some q := by
  induction c with
  | nil =>
    have hb : (t == t) = true := beq_iff_eq.mpr rfl
    simp [get_cached_price, set_cached_price, List.find?, hb]
  | cons e rest ih =>
    by_cases h : e.1 = t
    · have hb : (e.1 == t) = true := beq_iff_eq.mpr h
      have hb2 : (t == t) = true := beq_iff_eq.mpr rfl
      simp [get_cached_price, set_cached_price, List.find?, hb, hb2]
    · have hb : (e.1 == t) = false := beq_eq_false_iff_ne.mpr h
      simp only [set_cached_price, hb, if_false, get_cached_price, List.find?, hb]
      simpa [get_cached_price] using ih

theorem get_set_other (c : List (String × Rat)) (t t0 : String) (q : Rat)
    (h : t ≠ t0) :
    get_cached_price (set_cached_price c t0 q) t = get_cached_price c t := by
  have hb0 : (t0 == t) = false := beq_eq_false_iff_ne.mpr (Ne.symm h)
  induction c with
  | nil => simp [get_cached_price, set_cached_price, List.find?, hb0]
  | cons e rest ih =>
    by_cases he : e.1 = t0
    · have hbe : (e.1 == t0) = true := beq_iff_eq.mpr he
      have hbt : (e.1 == t) = false := by
        apply beq_eq_false_iff_ne.mpr
        rw [he]
        exact Ne.symm h
      simp [get_cached_price, set_cached_price, List.find?, hbe, hbt, hb0]
    · have hbe : (e.1 == t0) = false := beq_eq_false_iff_ne.mpr he
      by_cases het : e.1 = t
      · have hbt : (e.1 == t) = true := beq_iff_eq.mpr het
        simp [get_cached_price, set_cached_price, List.find?, hbe, hbt]
      · have hbt : (e.1 == t) = false := beq_eq_false_iff_ne.mpr het
        simp only [set_cached_price, hbe, if_false]
        simp only [get_cached_price, List.find?, hbt]
        simpa [get_cached_price] using ih

theorem lookup_none_of_not_mem (t : String) (xs : List (String × Rat))
    (h : t ∉ xs.map Prod.fst) : List.lookup t xs = none := by
  induction xs with
  | nil => rfl
  | cons e rest ih =>
    simp only [List.map_cons, List.mem_cons] at h
    push_neg at h
    simp [List.lookup, beq_eq_false_iff_ne.mpr h.1, ih h.2]

theorem mem_keys_of_lookup (t : String) (xs : List (String × Rat)) (q : Rat)
    (h : List.lookup t xs = some q) : t ∈ xs.map Prod.fst := by
  induction xs with
  | nil => simp [List.lookup] at h
  | cons e rest ih =>
    by_cases he : t = e.1
    · simp [he]
    · simp only [List.lookup, beq_eq_false_iff_ne.mpr he] at h
      simp [ih h]

theorem lookup_append_first (t : String) (xs ys : List (String × Rat)) :
    List.lookup t (xs ++ ys) = firstSome (List.lookup t xs) (List.lookup t ys) := by
  induction xs with
  | nil => simp [firstSome, List.lookup]
  | cons e rest ih =>
    by_cases he : t = e.1
    · simp [List.lookup, he, firstSome]
    · simp [List.lookup, beq_eq_false_iff_ne.mpr he, ih]

theorem lookup_of_mem_nodup (t : String) (q : Rat) (xs : List (String × Rat))
    (hnd : (xs.map Prod.fst).Nodup) (hm : (t, q) ∈ xs) :
    List.lookup t xs = some q := by
  induction xs with
  | nil => simp at hm
  | cons e rest ih =>
    simp only [List.map_cons, List.nodup_cons] at hnd
    rcases List.mem_cons.mp hm with h | h
    · subst h
      simp [List.lookup]
    · have hne : t ≠ e.1 := by
        intro he
        exact hnd.1 (he ▸ (List.mem_map_of_mem Prod.fst h))
      simp [List.lookup, beq_eq_false_iff_ne.mpr hne, ih hnd.2 h]

theorem extract_eq_of_extOk (it : RawItem) (h : extOk it = true) :
    extractItem it = .ok (extTitle it, extPrice it, extUrl it) := by
  unfold extOk at h
  unfold extTitle extPrice extUrl
  rcases he : extractItem it with e | v
  · rw [he] at h; simp at h
  · rcases v with ⟨t, q, u⟩
    rfl

theorem retry_ok_first (outcome : Nat → Except String String) (s : String)
    (h : outcome 0 = .ok s) :
    scrape_with_retry outcome = ([.attempt 0], some (.ok s)) := by
  have hr : List.range MAX_RETRIES = [0, 1, 2] := rfl
  rw [scrape_with_retry, hr]
  simp [retryLoop, h]

theorem retry_all_fail (outcome : Nat → Except String String)
    (e0 e1 e2 : String)
    (h0 : outcome 0 = .error e0) (h1 : outcome 1 = .error e1)
    (h2 : outcome 2 = .error e2) :
    scrape_with_retry outcome =
      ([.attempt 0, .sleep RETRY_DELAY, .attempt 1, .sleep RETRY_DELAY, .attempt 2],
        some (.error e2)) := by
  have hr : List.range MAX_RETRIES = [0, 1, 2] := rfl
  rw [scrape_with_retry, hr]
  simp [retryLoop, h0, h1, h2, MAX_RETRIES]

theorem pagePairs_keys (items : List RawItem) :
    (pagePairs items).map Prod.fst = pageTitles items := by
  simp [pagePairs, pageTitles, List.map_map]

theorem sliceTitles_succ (pages : Nat → List RawItem) (start n : Nat) :
    sliceTitles pages start (n + 1) =
      pageTitles (pages start) ++ sliceTitles pages (start + 1) n := rfl

theorem slicePairs_succ (pages : Nat → List RawItem) (start n : Nat) :
    slicePairs pages start (n + 1) =
      pagePairs (pages start) ++ slicePairs pages (start + 1) n := rfl

theorem sliceRecords_succ (pages : Nat → List RawItem) (start n : Nat) :
    sliceRecords pages start (n + 1) =
      pageRecords (pages start) ++ sliceRecords pages (start + 1) n := rfl

theorem slicePairs_keys (pages : Nat → List RawItem) (start n : Nat) :
    (slicePairs pages start n).map Prod.fst = sliceTitles pages start n := by
  induction n generalizing start with
  | zero => rfl
  | succ m ih =>
    rw [slicePairs_succ, sliceTitles_succ, List.map_append, pagePairs_keys, ih]

theorem sliceRecords_map_title (pages : Nat → List RawItem) (start n : Nat) :
    (sliceRecords pages start n).map Product.product_title = sliceTitles pages start n := by
  induction n generalizing start with
  | zero => rfl
  | succ m ih =>
    rw [sliceRecords_succ, sliceTitles_succ, List.map_append, ih]
    congr 1
    simp only [pageRecords, pageTitles, List.map_map]
    apply List.map_congr_left
    intro a _
    rfl

theorem parseStep_all_cached (env : Env) :
    ∀ (items : List RawItem) (acc : List Product) (st : ScrapeState),
    (∀ it ∈ items, extOk it = true ∧
      get_cached_price st.cache (extTitle it) = some (extPrice it)) →
    parseStep env items acc st = (st, .ok acc) := by
  intro items
  induction items with
  | nil => intro acc st _; rfl
  | cons it rest ih =>
    intro acc st h
    obtain ⟨hok, hca⟩ := h it (by simp)
    have hex := extract_eq_of_extOk it hok
    have hcond : ¬ get_cached_price st.cache (extTitle it) ≠ some (extPrice it) := by
      rw [hca]; simp
    simp only [parseStep, hex, if_neg hcond]
    exact ih acc st (fun it2 hm => h it2 (by simp [hm]))

theorem parseStep_all_fresh (env : Env) :
    ∀ (items : List RawItem) (acc : List Product) (st : ScrapeState),
    (∀ it ∈ items, extOk it = true) →
    (∀ it ∈ items, ∃ c, env.imgGet (extUrl it) = .ok c) →
    (∀ it ∈ items, get_cached_price st.cache (extTitle it) = none) →
    (pageTitles items).Nodup →
    ∃ stF, parseStep env items acc st = (stF, .ok (acc ++ pageRecords items)) ∧
      ∀ t, get_cached_price stF.cache t =
        firstSome (List.lookup t (pagePairs items)) (get_cached_price st.cache t) := by
  intro items
  induction items with
  | nil =>
    intro acc st _ _ _ _
    exact ⟨st, by simp [parseStep, pageRecords], fun t => by simp [pagePairs, firstSome, List.lookup]⟩
  | cons it rest ih =>
    intro acc st hwf himg hfresh hnodup
    have hex := extract_eq_of_extOk it (hwf it (by simp))
    obtain ⟨c, hc⟩ := himg it (by simp)
    have hfr : get_cached_price st.cache (extTitle it) = none := hfresh it (by simp)
    have hcond : get_cached_price st.cache (extTitle it) ≠ some (extPrice it) := by
      rw [hfr]; simp
    have hnd : (pageTitles rest).Nodup ∧ extTitle it ∉ pageTitles rest := by
      have := hnodup
      rw [pageTitles, List.map_cons, List.nodup_cons] at this
      exact ⟨this.2, this.1⟩
    have hfresh1 : ∀ it2 ∈ rest,
        get_cached_price
          (set_cached_price st.cache (extTitle it) (extPrice it)) (extTitle it2) = none := by
      intro it2 hm
      have hne : extTitle it2 ≠ extTitle it := by
        intro heq
        exact hnd.2 (heq ▸ List.mem_map_of_mem extTitle hm)
      rw [get_set_other _ _ _ _ hne]
      exact hfresh it2 (by simp [hm])
    obtain ⟨stF, hrun, hchar⟩ :=
      ih (acc ++ [recordOf (extTitle it) (extPrice it)])
        { cache := set_cached_price st.cache (extTitle it) (extPrice it),
          downloads := st.downloads ++ [(imagePathOf (extTitle it), c)] }
        (fun it2 hm => hwf it2 (by simp [hm]))
        (fun it2 hm => himg it2 (by simp [hm]))
        hfresh1 hnd.1
    refine ⟨stF, ?_, ?_⟩
    · simp only [parseStep, hex, if_pos hcond, hc]
      rw [hrun]
      simp [pageRecords]
    · intro t
      rw [hchar t]
      by_cases ht : t = extTitle it
      · have hlr : List.lookup t (pagePairs rest) = none := by
          apply lookup_none_of_not_mem
          rw [pagePairs_keys, ht]
          exact hnd.2
        have hls : List.lookup t (pagePairs (it :: rest)) = some (extPrice it) := by
          simp [pagePairs, List.lookup, ht]
        rw [hlr, hls]
        simp only [firstSome]
        rw [ht]
        exact (get_set_same _ _ _).symm ▸ rfl
      · have hls : List.lookup t (pagePairs (it :: rest)) = List.lookup t (pagePairs rest) := by
          simp [pagePairs, List.lookup, beq_eq_false_iff_ne.mpr ht]
        rw [hls, get_set_other _ _ _ _ ht]

theorem scrapeGo_exhaust (env : Env) (settings : ScrapingSettings)
    (pages : Nat → List RawItem) (htmlFor : Nat → String)
    (hlim : settings.page_limit = none) :
    ∀ (n start : Nat), ∀ (acc : List Product) (visited fuel : Nat), ∀ st : ScrapeState,
    n < fuel →
    (∀ p a, start ≤ p → p ≤ start + n →
      env.fetchOutcome (urlFor settings p) settings.proxy a = .ok (htmlFor p)) →
    (∀ p, start ≤ p → p ≤ start + n → env.soup (htmlFor p) = pages p) →
    (∀ p, start ≤ p → p < start + n → pages p ≠ []) →
    (∀ p, start ≤ p → p < start + n → ∀ it ∈ pages p, extOk it = true) →
    (∀ p, start ≤ p → p < start + n → ∀ it ∈ pages p, ∃ c, env.imgGet (extUrl it) = .ok c) →
    pages (start + n) = [] →
    (sliceTitles pages start n).Nodup →
    (∀ t ∈ sliceTitles pages start n, get_cached_price st.cache t = none) →
    ∃ stF, scrapeGo env settings fuel start acc st visited =
        some ⟨stF, visited + (n + 1), .ok (acc ++ sliceRecords pages start n)⟩ ∧
      ∀ t, get_cached_price stF.cache t =
        firstSome (List.lookup t (slicePairs pages start n)) (get_cached_price st.cache t) := by
  intro n
  induction n with
  | zero =>
    intro start acc visited fuel st hfuel hfetch hsoup _ _ _ hlast _ _
    obtain ⟨f, rfl⟩ : ∃ f, fuel = f + 1 := ⟨fuel - 1, by omega⟩
    have hph : pageLimitHit settings start = false := by simp [pageLimitHit, hlim]
    have hr := retry_ok_first
      (fun a => env.fetchOutcome (urlFor settings start) settings.proxy a)
      (htmlFor start)
      (hfetch start 0 (Nat.le_refl _) (by omega))
    have hs : env.soup (htmlFor start) = pages start := hsoup start (Nat.le_refl _) (by omega)
    have hpg : pages start = [] := by simpa using hlast
    refine ⟨st, ?_, ?_⟩
    · simp only [scrapeGo, hph, Bool.false_eq_true, if_false, hr, hs, hpg,
        parse_product, parseStep, List.isEmpty_nil, if_true]
      simp [sliceRecords, pagesSlice]
    · intro t
      simp [slicePairs, pagesSlice, List.lookup, firstSome]
  | succ n ih =>
    intro start acc visited fuel st hfuel hfetch hsoup hne hwf himg hlast hnodup hfresh
    obtain ⟨f, rfl⟩ : ∃ f, fuel = f + 1 := ⟨fuel - 1, by omega⟩
    have hph : pageLimitHit settings start = false := by simp [pageLimitHit, hlim]
    have hr := retry_ok_first
      (fun a => env.fetchOutcome (urlFor settings start) settings.proxy a)
      (htmlFor start)
      (hfetch start 0 (Nat.le_refl _) (by omega))
    have hs : env.soup (htmlFor start) = pages start := hsoup start (Nat.le_refl _) (by omega)
    have hnd := hnodup
    rw [sliceTitles_succ, List.nodup_append] at hnd
    obtain ⟨hnd1, hnd2, hdisj⟩ := hnd
    obtain ⟨st1, hp, hchar1⟩ := parseStep_all_fresh env (pages start) [] st
      (hwf start (Nat.le_refl _) (by omega))
      (himg start (Nat.le_refl _) (by omega))
      (fun it hm => hfresh (extTitle it)
        (by rw [sliceTitles_succ]
            exact List.mem_append_left _ (List.mem_map_of_mem extTitle hm)))
      hnd1
    have hpne : pages start ≠ [] := hne start (Nat.le_refl _) (by omega)
    have hie : (pageRecords (pages start)).isEmpty = false := by
      rcases hx : pages start with _ | ⟨a, as⟩
      · exact absurd hx hpne
      · simp [pageRecords, hx]
    have hfresh1 : ∀ t ∈ sliceTitles pages (start + 1) n,
        get_cached_price st1.cache t = none := by
      intro t ht
      rw [hchar1 t]
      have hlp : List.lookup t (pagePairs (pages start)) = none := by
        apply lookup_none_of_not_mem
        rw [pagePairs_keys]
        intro hmem
        exact hdisj hmem ht
      rw [hlp]
      simp only [firstSome]
      exact hfresh t (by rw [sliceTitles_succ]; exact List.mem_append_right _ ht)
    obtain ⟨stF, hrunF, hcharF⟩ := ih (start + 1) (acc ++ pageRecords (pages start))
      (visited + 1) f st1
      (by omega)
      (fun p a h1 h2 => hfetch p a (by omega) (by omega))
      (fun p h1 h2 => hsoup p (by omega) (by omega))
      (fun p h1 h2 => hne p (by omega) (by omega))
      (fun p h1 h2 => hwf p (by omega) (by omega))
      (fun p h1 h2 => himg p (by omega) (by omega))
      (by have he : start + 1 + n = start + (n + 1) := by omega
          rw [he]; exact hlast)
      hnd2
      hfresh1
    refine ⟨stF, ?_, ?_⟩
    · simp only [List.nil_append] at hp
      have hA : visited + 1 + (n + 1) = visited + (n + 1 + 1) := by omega
      rw [hA, List.append_assoc] at hrunF
      simp only [scrapeGo, hph, Bool.false_eq_true, if_false, hr, hs, parse_product, hp,
        hie, if_false]
      rw [hrunF, sliceRecords_succ]
    · intro t
      rw [hcharF t, hchar1 t, slicePairs_succ, lookup_append_first]
      rcases hlp : List.lookup t (pagePairs (pages start)) with _ | v
      · simp [firstSome, hlp]
      · have htm : t ∈ pageTitles (pages start) := by
          have hmk := mem_keys_of_lookup t _ v hlp
          rwa [pagePairs_keys] at hmk
        have hlps : List.lookup t (slicePairs pages (start + 1) n) = none := by
          apply lookup_none_of_not_mem
          rw [slicePairs_keys]
          exact fun hc => hdisj htm hc
        simp [firstSome, hlp, hlps]

theorem scrapeGo_limited (env : Env) (settings : ScrapingSettings)
    (pages : Nat → List RawItem) (htmlFor : Nat → String) :
    ∀ (n start : Nat), ∀ (acc : List Product) (visited fuel : Nat), ∀ st : ScrapeState,
    n < fuel →
    (∀ p, start ≤ p → p < start + n → pageLimitHit settings p = false) →
    pageLimitHit settings (start + n) = true →
    (∀ p a, start ≤ p → p < start + n →
      env.fetchOutcome (urlFor settings p) settings.proxy a = .ok (htmlFor p)) →
    (∀ p, start ≤ p → p < start + n → env.soup (htmlFor p) = pages p) →
    (∀ p, start ≤ p → p < start + n → pages p ≠ []) →
    (∀ p, start ≤ p → p < start + n → ∀ it ∈ pages p, extOk it = true) →
    (∀ p, start ≤ p → p < start + n → ∀ it ∈ pages p, ∃ c, env.imgGet (extUrl it) = .ok c) →
    (sliceTitles pages start n).Nodup →
    (∀ t ∈ sliceTitles pages start n, get_cached_price st.cache t = none) →
    ∃ stF, scrapeGo env settings fuel start acc st visited =
        some ⟨stF, visited + n, .ok (acc ++ sliceRecords pages start n)⟩ ∧
      ∀ t, get_cached_price stF.cache t =
        firstSome (List.lookup t (slicePairs pages start n)) (get_cached_price st.cache t) := by
  intro n
  induction n with
  | zero =>
    intro start acc visited fuel st hfuel _ hhit _ _ _ _ _ _ _
    obtain ⟨f, rfl⟩ : ∃ f, fuel = f + 1 := ⟨fuel - 1, by omega⟩
    have hph : pageLimitHit settings start = true := by simpa using hhit
    refine ⟨st, ?_, ?_⟩
    · simp only [scrapeGo, hph, if_true]
      simp [sliceRecords, pagesSlice]
    · intro t
      simp [slicePairs, pagesSlice, List.lookup, firstSome]
  | succ n ih =>
    intro start acc visited fuel st hfuel hnohit hhit hfetch hsoup hne hwf himg hnodup hfresh
    obtain ⟨f, rfl⟩ : ∃ f, fuel = f + 1 := ⟨fuel - 1, by omega⟩
    have hph : pageLimitHit settings start = false := hnohit start (Nat.le_refl _) (by omega)
    have hr := retry_ok_first
      (fun a => env.fetchOutcome (urlFor settings start) settings.proxy a)
      (htmlFor start)
      (hfetch start 0 (Nat.le_refl _) (by omega))
    have hs : env.soup (htmlFor start) = pages start := hsoup start (Nat.le_refl _) (by omega)
    have hnd := hnodup
    rw [sliceTitles_succ, List.nodup_append] at hnd
    obtain ⟨hnd1, hnd2, hdisj⟩ := hnd
    obtain ⟨st1, hp, hchar1⟩ := parseStep_all_fresh env (pages start) [] st
      (hwf start (Nat.le_refl _) (by omega))
      (himg start (Nat.le_refl _) (by omega))
      (fun it hm => hfresh (extTitle it)
        (by rw [sliceTitles_succ]
            exact List.mem_append_left _ (List.mem_map_of_mem extTitle hm)))
      hnd1
    have hpne : pages start ≠ [] := hne start (Nat.le_refl _) (by omega)
    have hie : (pageRecords (pages start)).isEmpty = false := by
      rcases hx : pages start with _ | ⟨a, as⟩
      · exact absurd hx hpne
      · simp [pageRecords, hx]
    have hfresh1 : ∀ t ∈ sliceTitles pages (start + 1) n,
        get_cached_price st1.cache t = none := by
      intro t ht
      rw [hchar1 t]
      have hlp : List.lookup t (pagePairs (pages start)) = none := by
        apply lookup_none_of_not_mem
        rw [pagePairs_keys]
        intro hmem
        exact hdisj hmem ht
      rw [hlp]
      simp only [firstSome]
      exact hfresh t (by rw [sliceTitles_succ]; exact List.mem_append_right _ ht)
    obtain ⟨stF, hrunF, hcharF⟩ := ih (start + 1) (acc ++ pageRecords (pages start))
      (visited + 1) f st1
      (by omega)
      (fun p h1 h2 => hnohit p (by omega) (by omega))
      (by have he : start + 1 + n = start + (n + 1) := by omega
          rw [he]; exact hhit)
      (fun p a h1 h2 => hfetch p a (by omega) (by omega))
      (fun p h1 h2 => hsoup p (by omega) (by omega))
      (fun p h1 h2 => hne p (by omega) (by omega))
      (fun p h1 h2 => hwf p (by omega) (by omega))
      (fun p h1 h2 => himg p (by omega) (by omega))
      hnd2
      hfresh1
    refine ⟨stF, ?_, ?_⟩
    · simp only [List.nil_append] at hp
      have hA : visited + 1 + n = visited + (n + 1) := by omega
      rw [hA, List.append_assoc] at hrunF
      simp only [scrapeGo, hph, Bool.false_eq_true, if_false, hr, hs, parse_product, hp,
        hie, if_false]
      rw [hrunF, sliceRecords_succ]
    · intro t
      rw [hcharF t, hchar1 t, slicePairs_succ, lookup_append_first]
      rcases hlp : List.lookup t (pagePairs (pages start)) with _ | v
      · simp [firstSome, hlp]
      · have htm : t ∈ pageTitles (pages start) := by
          have hmk := mem_keys_of_lookup t _ v hlp
          rwa [pagePairs_keys] at hmk
        have hlps : List.lookup t (slicePairs pages (start + 1) n) = none := by
          apply lookup_none_of_not_mem
          rw [slicePairs_keys]
          exact fun hc => hdisj htm hc
        simp [firstSome, hlp, hlps]

theorem scrapeGo_first_page_rejected (env : Env) (settings : ScrapingSettings)
    (htmlFor : String) (items : List RawItem) (st : ScrapeState) (fuel : Nat)
    (hlim : settings.page_limit = none)
    (hfetch : ∀ a, env.fetchOutcome (urlFor settings 1) settings.proxy a = .ok htmlFor)
    (hsoup : env.soup htmlFor = items)
    (hrej : ∀ it ∈ items, extOk it = true ∧
      get_cached_price st.cache (extTitle it) = some (extPrice it)) :
    scrape_catalog env settings st (fuel + 1) = some ⟨st, 1, .ok []⟩ := by
  have hph : pageLimitHit settings 1 = false := by simp [pageLimitHit, hlim]
  have hr := retry_ok_first
    (fun a => env.fetchOutcome (urlFor settings 1) settings.proxy a) htmlFor (hfetch 0)
  have hp := parseStep_all_cached env items [] st hrej
  simp only [scrape_catalog, scrapeGo, hph, Bool.false_eq_true, if_false, hr, hsoup,
    parse_product, hp, List.isEmpty_nil, if_true]

/-- Claim C1 (amended).  First part: with no page limit, against a catalog
whose pages `1..k` each carry at least one candidate and whose candidates the
change filter all *accepts* (well-formed items with pairwise-distinct titles
absent from the cache, downloads succeeding), page `k+1` parsing to zero
candidates, the crawl visits exactly `k+1` pages and returns exactly the
records of pages `1..k` in order.  Second part — the amendment the code
forces: a page whose candidates are all *rejected* by the change filter (all
prices unchanged in the cache) does NOT advance the crawl; it stops it at
that page, because `if not products: break` (main.py line 158) tests the
post-filter accepted records, not the raw parsed candidates. -/
theorem crawl_stops_on_empty_accepted :
    (∀ (env : Env) (settings : ScrapingSettings) (pages : Nat → List RawItem)
        (htmlFor : Nat → String) (k fuel : Nat) (st0 : ScrapeState),
      settings.page_limit = none →
      k < fuel →
      (∀ p a, 1 ≤ p → p ≤ 1 + k →
        env.fetchOutcome (urlFor settings p) settings.proxy a = .ok (htmlFor p)) →
      (∀ p, 1 ≤ p → p ≤ 1 + k → env.soup (htmlFor p) = pages p) →
      (∀ p, 1 ≤ p → p < 1 + k → pages p ≠ []) →
      (∀ p, 1 ≤ p → p < 1 + k → ∀ it ∈ pages p, extOk it = true) →
      (∀ p, 1 ≤ p → p < 1 + k → ∀ it ∈ pages p, ∃ c, env.imgGet (extUrl it) = .ok c) →
      pages (1 + k) = [] →
      (sliceTitles pages 1 k).Nodup →
      (∀ t ∈ sliceTitles pages 1 k, get_cached_price st0.cache t = none) →
      ∃ stF, scrape_catalog env settings st0 fuel =
        some ⟨stF, k + 1, .ok (sliceRecords pages 1 k)⟩) ∧
    (∀ (env : Env) (settings : ScrapingSettings) (htmlFor : String)
        (items : List RawItem) (st : ScrapeState) (fuel : Nat),
      settings.page_limit = none →
      (∀ a, env.fetchOutcome (urlFor settings 1) settings.proxy a = .ok htmlFor) →
      env.soup htmlFor = items →
      (∀ it ∈ items, extOk it = true ∧
        get_cached_price st.cache (extTitle it) = some (extPrice it)) →
      scrape_catalog env settings st (fuel + 1) = some ⟨st, 1, .ok []⟩) := by
  constructor
  · intro env settings pages htmlFor k fuel st0 hlim hfuel hf hs hne hwf himg hlast hnd hfr
    obtain ⟨stF, hrun, _⟩ := scrapeGo_exhaust env settings pages htmlFor hlim
      k 1 [] 0 fuel st0 hfuel hf hs hne hwf himg hlast hnd hfr
    exact ⟨stF, by simpa [scrape_catalog] using hrun⟩
  · intro env settings htmlFor items st fuel hlim hf hs hrej
    exact scrapeGo_first_page_rejected env settings htmlFor items st fuel hlim hf hs hrej

/-- Witness for C1: on the concrete catalog `pagesA` (pages 1-2 nonempty,
page 3 empty) with an empty cache, the crawl visits exactly 3 pages and
returns the records of pages 1-2. -/
theorem crawl_stops_on_empty_accepted_witness :
    ∃ stF, scrape_catalog envA settingsA ⟨[], []⟩ 10 =
      some ⟨stF, 3, .ok (sliceRecords pagesA 1 2)⟩ :=
  crawl_stops_on_empty_accepted.1 envA settingsA pagesA
    (fun p => urlFor settingsA p) 2 10 ⟨[], []⟩
    rfl (by decide)
    (fun p a h1 h2 => rfl)
    (by intro p h1 h2; interval_cases p <;> rfl)
    (by intro p h1 h2; interval_cases p <;> decide)
    (by intro p h1 h2; interval_cases p <;> decide)
    (by intro p h1 h2 it hm; exact ⟨"bytes", rfl⟩)
    rfl
    (by decide)
    (by decide)

/-- Claim C1 counterexample, refuting the claim as stated: pages 1 and 2 of
`pagesA` parse to one raw candidate each and page 3 to zero, there is no
page limit, yet with the cache already holding Widget at its current price
the run visits only 1 page — not `k+1 = 3` — and returns nothing, because
the stopping check counts post-filter accepted records, not raw parsed
candidates. -/
theorem crawl_raw_candidates_claim_false :
    pagesA 1 ≠ [] ∧ pagesA 2 ≠ [] ∧ pagesA 3 = [] ∧
    scrape_catalog envA settingsA ⟨[("Widget", mkRat 999 100)], []⟩ 10 =
      some ⟨⟨[("Widget", mkRat 999 100)], []⟩, 1, .ok []⟩ ∧
    (1 : Nat) ≠ 2 + 1 := by
  refine ⟨by decide, by decide, rfl, by decide, by decide⟩

/-- Claim C8 (amended): with a positive configured page limit `L`, against a
catalog whose pages `1..L` each yield at least one candidate that the change
filter *accepts* (well-formed items, pairwise-distinct titles absent from the
cache, downloads succeeding), the crawl visits exactly pages `1..L`, stops,
and returns the records accumulated from those `L` pages.  (The original
claim asked only for raw candidates on every page; the counterexample shows
a page of all-rejected candidates stops the crawl before the limit.) -/
theorem page_limit_visits (env : Env) (settings : ScrapingSettings)
    (pages : Nat → List RawItem) (htmlFor : Nat → String) (L fuel : Nat)
    (st0 : ScrapeState)
    (hlim : settings.page_limit = some (L : Int)) (hL : 0 < L) (hfuel : L < fuel)
    (hfetch : ∀ p a, 1 ≤ p → p < 1 + L →
      env.fetchOutcome (urlFor settings p) settings.proxy a = .ok (htmlFor p))
    (hsoup : ∀ p, 1 ≤ p → p < 1 + L → env.soup (htmlFor p) = pages p)
    (hne : ∀ p, 1 ≤ p → p < 1 + L → pages p ≠ [])
    (hwf : ∀ p, 1 ≤ p → p < 1 + L → ∀ it ∈ pages p, extOk it = true)
    (himg : ∀ p, 1 ≤ p → p < 1 + L → ∀ it ∈ pages p, ∃ c, env.imgGet (extUrl it) = .ok c)
    (hnodup : (sliceTitles pages 1 L).Nodup)
    (hfresh : ∀ t ∈ sliceTitles pages 1 L, get_cached_price st0.cache t = none) :
    ∃ stF, scrape_catalog env settings st0 fuel =
      some ⟨stF, L, .ok (sliceRecords pages 1 L)⟩ := by
  have hnohit : ∀ p, 1 ≤ p → p < 1 + L → pageLimitHit settings p = false := by
    intro p h1 h2
    simp only [pageLimitHit, hlim]
    simp only [Bool.and_eq_false_iff]
    right
    simp only [decide_eq_false_iff_not]
    omega
  have hhit : pageLimitHit settings (1 + L) = true := by
    simp only [pageLimitHit, hlim, Bool.and_eq_true, bne_iff_ne, decide_eq_true_eq]
    constructor
    · omega
    · push_cast
      omega
  obtain ⟨stF, hrun, _⟩ := scrapeGo_limited env settings pages htmlFor L 1 [] 0 fuel st0
    hfuel hnohit hhit hfetch hsoup hne hwf himg hnodup hfresh
  exact ⟨stF, by simpa [scrape_catalog] using hrun⟩

/-- Witness for C8: on the catalog `pagesA` with limit 2 and an empty cache,
the crawl visits exactly 2 pages and returns their records. -/
theorem page_limit_visits_witness :
    ∃ stF, scrape_catalog envA settingsB ⟨[], []⟩ 10 =
      some ⟨stF, 2, .ok (sliceRecords pagesA 1 2)⟩ :=
  page_limit_visits envA settingsB pagesA (fun p => urlFor settingsB p) 2 10 ⟨[], []⟩
    rfl (by decide) (by decide)
    (fun p a h1 h2 => rfl)
    (by intro p h1 h2; interval_cases p <;> rfl)
    (by intro p h1 h2; interval_cases p <;> decide)
    (by intro p h1 h2; interval_cases p <;> decide)
    (by intro p h1 h2 it hm; exact ⟨"bytes", rfl⟩)
    (by decide)
    (by decide)

/-- Claim C8 counterexample, refuting the claim as stated: with
`page_limit = 2` against the catalog `pagesB` whose every page parses to one
raw candidate (pages 1 and 2 shown concretely), a cache already holding
Widget at its current price makes page 1 yield zero *accepted* records, so
the run stops after visiting only 1 page instead of 2. -/
theorem page_limit_claim_false :
    pagesB 1 ≠ [] ∧ pagesB 2 ≠ [] ∧ pagesB 3 ≠ [] ∧
    scrape_catalog envB settingsB ⟨[("Widget", mkRat 999 100)], []⟩ 10 =
      some ⟨⟨[("Widget", mkRat 999 100)], []⟩, 1, .ok []⟩ ∧
    (1 : Nat) ≠ 2 := by
  exact ⟨by decide, by decide, by decide, by decide, by decide⟩

/-- Claim C5 (amended): against an unchanged catalog (pages `1..k` of
well-formed candidates with pairwise-distinct titles not in the cache,
page `k+1` empty, no page limit), the first run returns one record per
candidate — as many records as distinct titles — visiting `k+1` pages; a
second run from the cache the first run left behind returns 0 records and
leaves the external state (in particular every cache entry) exactly as the
first run left it.  But — the amendment the code forces — the second run
does NOT perform a full fetch+parse pass over every page up to exhaustion:
it fetches only page 1, whose candidates are all rejected, and stops there
(`if not products: break` fires on the post-filter empty list). -/
theorem rerun_dedup_short_circuit (env : Env) (settings : ScrapingSettings)
    (pages : Nat → List RawItem) (htmlFor : Nat → String) (k fuel fuel2 : Nat)
    (st0 : ScrapeState)
    (hlim : settings.page_limit = none) (hk : 0 < k) (hfuel : k < fuel)
    (hfetch : ∀ p a, 1 ≤ p → p ≤ 1 + k →
      env.fetchOutcome (urlFor settings p) settings.proxy a = .ok (htmlFor p))
    (hsoup : ∀ p, 1 ≤ p → p ≤ 1 + k → env.soup (htmlFor p) = pages p)
    (hne : ∀ p, 1 ≤ p → p < 1 + k → pages p ≠ [])
    (hwf : ∀ p, 1 ≤ p → p < 1 + k → ∀ it ∈ pages p, extOk it = true)
    (himg : ∀ p, 1 ≤ p → p < 1 + k → ∀ it ∈ pages p, ∃ c, env.imgGet (extUrl it) = .ok c)
    (hlast : pages (1 + k) = [])
    (hnodup : (sliceTitles pages 1 k).Nodup)
    (hfresh : ∀ t ∈ sliceTitles pages 1 k, get_cached_price st0.cache t = none) :
    ∃ stF,
      scrape_catalog env settings st0 fuel =
        some ⟨stF, k + 1, .ok (sliceRecords pages 1 k)⟩ ∧
      (sliceRecords pages 1 k).map Product.product_title = sliceTitles pages 1 k ∧
      scrape_catalog env settings stF (fuel2 + 1) = some ⟨stF, 1, .ok []⟩ := by
  obtain ⟨stF, hrun, hchar⟩ := scrapeGo_exhaust env settings pages htmlFor hlim
    k 1 [] 0 fuel st0 hfuel hfetch hsoup hne hwf himg hlast hnodup hfresh
  have hrej : ∀ it ∈ pages 1, extOk it = true ∧
      get_cached_price stF.cache (extTitle it) = some (extPrice it) := by
    intro it hm
    refine ⟨hwf 1 (Nat.le_refl _) (by omega) it hm, ?_⟩
    rw [hchar (extTitle it)]
    have hmm : (extTitle it, extPrice it) ∈ slicePairs pages 1 k := by
      obtain ⟨k0, rfl⟩ : ∃ k0, k = k0 + 1 := ⟨k - 1, by omega⟩
      rw [slicePairs_succ]
      exact List.mem_append_left _
        (List.mem_map_of_mem (fun it => (extTitle it, extPrice it)) hm)
    have hlk := lookup_of_mem_nodup (extTitle it) (extPrice it) _
      (by rw [slicePairs_keys]; exact hnodup) hmm
    rw [hlk]
    rfl
  refine ⟨stF, by simpa [scrape_catalog] using hrun, sliceRecords_map_title pages 1 k, ?_⟩
  exact scrapeGo_first_page_rejected env settings (htmlFor 1) (pages 1) stF fuel2 hlim
    (fun a => hfetch 1 a (Nat.le_refl _) (by omega))
    (hsoup 1 (Nat.le_refl _) (by omega))
    hrej

/-- Witness for C5: on the concrete catalog `pagesA` from an empty cache,
the first run visits 3 pages and returns the two records; the second run
from the resulting state returns no record and leaves the state unchanged. -/
theorem rerun_dedup_short_circuit_witness :
    ∃ stF,
      scrape_catalog envA settingsA ⟨[], []⟩ 10 =
        some ⟨stF, 2 + 1, .ok (sliceRecords pagesA 1 2)⟩ ∧
      (sliceRecords pagesA 1 2).map Product.product_title = sliceTitles pagesA 1 2 ∧
      scrape_catalog envA settingsA stF 10 = some ⟨stF, 1, .ok []⟩ :=
  rerun_dedup_short_circuit envA settingsA pagesA (fun p => urlFor settingsA p)
    2 10 9 ⟨[], []⟩
    rfl (by decide) (by decide)
    (fun p a h1 h2 => rfl)
    (by intro p h1 h2; interval_cases p <;> rfl)
    (by intro p h1 h2; interval_cases p <;> decide)
    (by intro p h1 h2; interval_cases p <;> decide)
    (by intro p h1 h2 it hm; exact ⟨"bytes", rfl⟩)
    rfl
    (by decide)
    (by decide)

/-- Claim C5 counterexample, refuting the "full pass" part as stated: on the
catalog `pagesA` the first run visits 3 pages (pages 1-2 nonempty, page 3
empty) and returns 2 records; the second run, primed with the first run's
cache, returns 0 records and the identical state — but it visits only 1
page, not the 3 pages a full fetch+parse pass up to exhaustion would visit. -/
theorem rerun_full_pass_claim_false :
    scrape_catalog envA settingsA ⟨[], []⟩ 10 =
      some ⟨⟨[("Widget", mkRat 999 100), ("Gadget", mkRat 1999 100)],
             [("images/widget.jpg", "bytes"), ("images/gadget.jpg", "bytes")]⟩, 3,
        .ok [{ product_title := "Widget", product_price := mkRat 999 100,
               path_to_image := "images/widget.jpg" },
             { product_title := "Gadget", product_price := mkRat 1999 100,
               path_to_image := "images/gadget.jpg" }]⟩ ∧
    scrape_catalog envA settingsA
        ⟨[("Widget", mkRat 999 100), ("Gadget", mkRat 1999 100)],
         [("images/widget.jpg", "bytes"), ("images/gadget.jpg", "bytes")]⟩ 10 =
      some ⟨⟨[("Widget", mkRat 999 100), ("Gadget", mkRat 1999 100)],
             [("images/widget.jpg", "bytes"), ("images/gadget.jpg", "bytes")]⟩, 1,
        .ok []⟩ ∧
    (1 : Nat) ≠ 3 := by
  exact ⟨by decide, by decide, by decide⟩

/-- Claim C2 (amended): parsing does NOT skip malformed items — it fails the
page on the first one.  An item missing its title, price, or image element,
or whose price text is unparseable, raises an exception that aborts the
whole page (and with it the run), and no item of that page is returned.
The two closing conjuncts record the actual price-text behavior the claim
misstates: every `$` occurrence is removed (not one leading symbol), and a
negative price parses fine and is not rejected. -/
theorem parse_malformed_aborts :
    (∀ (env : Env) (it : RawItem) (rest : List RawItem) (st : ScrapeState) (e : String),
      extractItem it = .error e →
      parse_product env (it :: rest) st = (st, .error e)) ∧
    extractItem ⟨some "X", some " $$5 ", some "u"⟩ = .ok ("X", mkRat 5 1, "u") ∧
    extractItem ⟨some "X", some "-5", some "u"⟩ = .ok ("X", mkRat (-5) 1, "u") := by
  refine ⟨?_, by decide, by decide⟩
  intro env it rest st e h
  simp [parse_product, parseStep, h]

/-- Witness for C2: the malformed `itemBad` (no title element) aborts its
page immediately, even with a nonempty cache in place. -/
theorem parse_malformed_aborts_witness :
    parse_product envA [itemBad] ⟨[("A", mkRat 1 1)], []⟩ =
      (⟨[("A", mkRat 1 1)], []⟩,
        .error "AttributeError: NoneType object has no attribute text") :=
  parse_malformed_aborts.1 envA itemBad [] ⟨[("A", mkRat 1 1)], []⟩
    "AttributeError: NoneType object has no attribute text" (by decide)

/-- Claim C2 counterexample, refuting the claim as stated: on a page whose
first item is malformed and whose second item `itemW` is perfectly
well-formed, parse raises instead of returning the remaining well-formed
item — the result is an error, not `ok [Widget record]`. -/
theorem parse_never_fails_claim_false :
    extOk itemW = true ∧
    parse_product envA [itemBad, itemW] ⟨[], []⟩ =
      (⟨[], []⟩, .error "AttributeError: NoneType object has no attribute text") ∧
    (Except.error "AttributeError: NoneType object has no attribute text"
        : Except String (List Product)) ≠
      .ok [{ product_title := "Widget", product_price := mkRat 999 100,
             path_to_image := "images/widget.jpg" }] := by
  exact ⟨by decide, by decide, by decide⟩

/-- Claim C3 (amended): the cache is updated exactly at acceptance time, not
at persistence time.  First part: a page whose candidates are all rejected
(each title cached at exactly its observed price) leaves the state untouched
— no cache mutation, no image download, no record.  Second part: an accepted
candidate upserts its cache entry *before* the image download, so when the
download fails and aborts the run the cache already holds the observed
price, although nothing is persisted to the product store in that run; after
an aborted run a cache entry can therefore hold a price that was never
persisted, which is what refutes the original claim (see the
counterexample). -/
theorem cache_updated_only_on_accept :
    (∀ (env : Env) (items : List RawItem) (st : ScrapeState),
      (∀ it ∈ items, extOk it = true ∧
        get_cached_price st.cache (extTitle it) = some (extPrice it)) →
      parse_product env items st = (st, .ok [])) ∧
    (∀ (env : Env) (it : RawItem) (rest : List RawItem) (st : ScrapeState)
        (t : String) (q : Rat) (u e : String),
      extractItem it = .ok (t, q, u) →
      get_cached_price st.cache t ≠ some q →
      env.imgGet u = .error e →
      parse_product env (it :: rest) st =
        ({ cache := set_cached_price st.cache t q, downloads := st.downloads },
          .error e)) := by
  constructor
  · intro env items st h
    exact parseStep_all_cached env items [] st h
  · intro env it rest st t q u e hex hne himg
    simp only [parse_product, parseStep, hex, if_pos hne, himg]

/-- Witness for C3: a rejected single-candidate page is a no-op, and an
accepted candidate with a failing download leaves the new price in the
cache while the page aborts. -/
theorem cache_updated_only_on_accept_witness :
    parse_product envA [itemW] ⟨[("Widget", mkRat 999 100)], []⟩ =
      (⟨[("Widget", mkRat 999 100)], []⟩, .ok []) ∧
    parse_product envD [itemW] ⟨[], []⟩ =
      (⟨[("Widget", mkRat 999 100)], []⟩, .error "download failed") :=
  ⟨cache_updated_only_on_accept.1 envA [itemW] ⟨[("Widget", mkRat 999 100)], []⟩
      (by decide),
   cache_updated_only_on_accept.2 envD itemW [] ⟨[], []⟩
      "Widget" (mkRat 999 100) "img1" "download failed" (by decide) (by decide) rfl⟩

/-- Claim C3 counterexample, refuting "after any run, including aborted
ones, every cache entry maps a title to the last price actually persisted":
a run through the endpoint in which the image download fails aborts with no
store persistence at all (`store = none`), yet the cache ends up holding
Widget at the merely-observed price 9.99 that was never persisted
anywhere. -/
theorem cache_persisted_claim_false :
    scrape_products envD settingsA ⟨[], []⟩ 10 =
      some ⟨⟨[("Widget", mkRat 999 100)], []⟩, none, .error "download failed"⟩ ∧
    get_cached_price [("Widget", mkRat 999 100)] "Widget" = some (mkRat 999 100) := by
  exact ⟨by decide, by decide⟩

/-- Claim C6 (confirmed): a candidate whose title is absent from the cache,
or cached with a price that differs from the observed one under exact
equality (no tolerance), is accepted: a record is built whose image path is
the deterministic `imagePathOf` of the title (lowercased, spaces replaced by
underscores, fixed `.jpg` extension), the cache entry is upserted to the
candidate price, and the image is downloaded to that path.  The absent
disjunct shows a candidate with an unseen title is always accepted. -/
theorem change_filter_accepts (env : Env) (st : ScrapeState) (it : RawItem)
    (t : String) (q : Rat) (u c : String)
    (hex : extractItem it = .ok (t, q, u))
    (hacc : get_cached_price st.cache t = none ∨
      ∃ c0, get_cached_price st.cache t = some c0 ∧ c0 ≠ q)
    (himg : env.imgGet u = .ok c) :
    parse_product env [it] st =
      ({ cache := set_cached_price st.cache t q,
         downloads := st.downloads ++ [(imagePathOf t, c)] },
        .ok [{ product_title := t, product_price := q, path_to_image := imagePathOf t }]) := by
  have hne : get_cached_price st.cache t ≠ some q := by
    rcases hacc with h | ⟨c0, hc0, hneq⟩
    · rw [h]; simp
    · rw [hc0]; simp [hneq]
  simp only [parse_product, parseStep, hex, if_pos hne, himg, List.nil_append]
  rfl

/-- Witness for C6: Gadget is cached at a different price (1, not 19.99), so
the candidate is accepted, the record carries `images/gadget.jpg`, and the
cache entry is updated to 19.99. -/
theorem change_filter_accepts_witness :
    parse_product envA [itemG] ⟨[("Gadget", mkRat 1 1)], []⟩ =
      (⟨[("Gadget", mkRat 1999 100)], [("images/gadget.jpg", "bytes")]⟩,
        .ok [{ product_title := "Gadget", product_price := mkRat 1999 100,
               path_to_image := "images/gadget.jpg" }]) :=
  change_filter_accepts envA ⟨[("Gadget", mkRat 1 1)], []⟩ itemG
    "Gadget" (mkRat 1999 100) "img2" "bytes" (by decide)
    (Or.inr ⟨mkRat 1 1, by decide, by decide⟩) rfl

/-- Claim C4 (confirmed): for any sequence of per-attempt outcomes, if fewer
than `MAX_RETRIES` (3) consecutive failures are followed by a success,
`scrape_with_retry` returns that success, having slept `RETRY_DELAY` between
consecutive attempts; if the first `MAX_RETRIES` outcomes are all failures —
the model does not distinguish network errors from non-2xx statuses, both
are exceptions — it fails after exactly `MAX_RETRIES` attempts, propagating
the failure of the final attempt, again with the fixed delay between
consecutive attempts. -/
theorem fetch_retry_policy (outcome : Nat → Except String String) :
    (∀ (k : Nat) (s : String) (es : Nat → String), k < MAX_RETRIES →
      (∀ i, i < k → outcome i = .error (es i)) →
      outcome k = .ok s →
      scrape_with_retry outcome =
        (((List.range k).map
            (fun i => [FetchEvent.attempt i, FetchEvent.sleep RETRY_DELAY])).flatten
          ++ [FetchEvent.attempt k],
          some (.ok s))) ∧
    (∀ es : Nat → String,
      (∀ i, i < MAX_RETRIES → outcome i = .error (es i)) →
      scrape_with_retry outcome =
        ([.attempt 0, .sleep RETRY_DELAY, .attempt 1, .sleep RETRY_DELAY, .attempt 2],
          some (.error (es 2)))) := by
  constructor
  · intro k s es hk hfail hok
    have hr : List.range MAX_RETRIES = [0, 1, 2] := rfl
    have hk3 : k < 3 := hk
    interval_cases k
    · rw [scrape_with_retry, hr]
      simp [retryLoop, hok]
    · have h0 := hfail 0 (by omega)
      rw [scrape_with_retry, hr]
      have hr1 : List.range 1 = [0] := rfl
      simp [retryLoop, h0, hok, MAX_RETRIES, RETRY_DELAY, hr1]
    · have h0 := hfail 0 (by omega)
      have h1 := hfail 1 (by omega)
      rw [scrape_with_retry, hr]
      have hr2 : List.range 2 = [0, 1] := rfl
      simp [retryLoop, h0, h1, hok, MAX_RETRIES, RETRY_DELAY, hr2]
  · intro es h
    exact retry_all_fail outcome (es 0) (es 1) (es 2)
      (h 0 (by decide)) (h 1 (by decide)) (h 2 (by decide))

/-- Witness for C4: one failed attempt followed by a success returns the
success after a single backoff sleep. -/
theorem fetch_retry_policy_witness :
    scrape_with_retry (fun i => if i = 0 then .error "boom" else .ok "html") =
      ([.attempt 0, .sleep RETRY_DELAY, .attempt 1], some (.ok "html")) := by
  have h := (fetch_retry_policy
      (fun i => if i = 0 then .error "boom" else .ok "html")).1
    1 "html" (fun _ => "boom") (by decide)
    (by intro i hi; interval_cases i; rfl) rfl
  simpa using h

/-- Claim C7 (confirmed): any run whose pagination loop propagates an error
— the first part covers every such run, the second shows a fetch failure
surviving the whole retry budget produces one, the third shows a failing
image download produces one — yields an endpoint outcome with no store
persistence at all (`save_products` is only reached after the loop
completes) and a single failure response carrying the original cause
description, with no distinction between error kinds (the blanket
`except Exception` maps every cause to the same 500 shape). -/
theorem run_abort_no_persist :
    (∀ (env : Env) (settings : ScrapingSettings) (st0 : ScrapeState) (fuel : Nat)
        (out : RunOut) (e : String),
      scrape_catalog env settings st0 fuel = some out →
      out.result = .error e →
      scrape_products env settings st0 fuel = some ⟨out.state, none, .error e⟩) ∧
    (∀ (env : Env) (settings : ScrapingSettings) (st0 : ScrapeState) (fuel : Nat)
        (es : Nat → String),
      settings.page_limit = none →
      (∀ a, env.fetchOutcome (urlFor settings 1) settings.proxy a = .error (es a)) →
      scrape_catalog env settings st0 (fuel + 1) = some ⟨st0, 0, .error (es 2)⟩) ∧
    (∀ (env : Env) (settings : ScrapingSettings) (st0 : ScrapeState) (fuel : Nat)
        (html : String) (it : RawItem) (rest : List RawItem) (t : String) (q : Rat)
        (u e : String),
      settings.page_limit = none →
      (∀ a, env.fetchOutcome (urlFor settings 1) settings.proxy a = .ok html) →
      env.soup html = it :: rest →
      extractItem it = .ok (t, q, u) →
      get_cached_price st0.cache t ≠ some q →
      env.imgGet u = .error e →
      scrape_catalog env settings st0 (fuel + 1) =
        some ⟨{ cache := set_cached_price st0.cache t q, downloads := st0.downloads },
          1, .error e⟩) := by
  refine ⟨?_, ?_, ?_⟩
  · intro env settings st0 fuel out e hrun hres
    rcases out with ⟨ost, ovis, ores⟩
    simp only at hres
    subst hres
    simp [scrape_products, hrun]
  · intro env settings st0 fuel es hlim hfail
    have hph : pageLimitHit settings 1 = false := by simp [pageLimitHit, hlim]
    have hr := retry_all_fail
      (fun a => env.fetchOutcome (urlFor settings 1) settings.proxy a)
      (es 0) (es 1) (es 2) (hfail 0) (hfail 1) (hfail 2)
    simp only [scrape_catalog, scrapeGo, hph, Bool.false_eq_true, if_false, hr]
  · intro env settings st0 fuel html it rest t q u e hlim hf hs hex hne himg
    have hph : pageLimitHit settings 1 = false := by simp [pageLimitHit, hlim]
    have hr := retry_ok_first
      (fun a => env.fetchOutcome (urlFor settings 1) settings.proxy a) html (hf 0)
    simp only [scrape_catalog, scrapeGo, hph, Bool.false_eq_true, if_false, hr, hs,
      parse_product, parseStep, hex, if_pos hne, himg]

/-- Witness for C7: with every fetch attempt failing, the endpoint run ends
with no store write and a 500 carrying the connection error. -/
theorem run_abort_no_persist_witness :
    scrape_products envF settingsA ⟨[], []⟩ 10 =
      some ⟨⟨[], []⟩, none, .error "ConnectionError"⟩ :=
  run_abort_no_persist.1 envF settingsA ⟨[], []⟩ 10
    ⟨⟨[], []⟩, 0, .error "ConnectionError"⟩ "ConnectionError" (by decide) rfl

/-- Claim C9 (confirmed): when the pagination loop completes and
`save_products` has therefore happened with the accumulated records, a
notifier that raises still propagates into the blanket `except`: the store
is updated while the caller receives a failure outcome. -/
theorem notify_failure_after_persist (env : Env) (settings : ScrapingSettings)
    (st0 : ScrapeState) (fuel : Nat) (out : RunOut) (products : List Product) (e : String)
    (hrun : scrape_catalog env settings st0 fuel = some out)
    (hres : out.result = .ok products)
    (hnot : env.notifyResult (completionMessage products.length) = .error e) :
    scrape_products env settings st0 fuel = some ⟨out.state, some products, .error e⟩ := by
  rcases out with ⟨ost, ovis, ores⟩
  simp only at hres
  subst hres
  simp [scrape_products, hrun, hnot]

/-- Witness for C9: a successful two-record crawl whose notifier raises
leaves the store written with both records while the response is the
propagated notifier error. -/
theorem notify_failure_after_persist_witness :
    scrape_products envN settingsA ⟨[], []⟩ 10 =
      some ⟨⟨[("Widget", mkRat 999 100), ("Gadget", mkRat 1999 100)],
             [("images/widget.jpg", "bytes"), ("images/gadget.jpg", "bytes")]⟩,
        some [{ product_title := "Widget", product_price := mkRat 999 100,
                path_to_image := "images/widget.jpg" },
              { product_title := "Gadget", product_price := mkRat 1999 100,
                path_to_image := "images/gadget.jpg" }],
        .error "notify boom"⟩ :=
  notify_failure_after_persist envN settingsA ⟨[], []⟩ 10
    ⟨⟨[("Widget", mkRat 999 100), ("Gadget", mkRat 1999 100)],
      [("images/widget.jpg", "bytes"), ("images/gadget.jpg", "bytes")]⟩, 3,
      .ok [{ product_title := "Widget", product_price := mkRat 999 100,
             path_to_image := "images/widget.jpg" },
           { product_title := "Gadget", product_price := mkRat 1999 100,
             path_to_image := "images/gadget.jpg" }]⟩
    [{ product_title := "Widget", product_price := mkRat 999 100,
       path_to_image := "images/widget.jpg" },
     { product_title := "Gadget", product_price := mkRat 1999 100,
       path_to_image := "images/gadget.jpg" }]
    "notify boom" (by decide) rfl rfl

theorem scrapeGo_settings_congr (env : Env) (s1 s2 : ScrapingSettings)
    (hph : ∀ p, pageLimitHit s1 p = pageLimitHit s2 p)
    (hurl : ∀ p, urlFor s1 p = urlFor s2 p)
    (hproxy : s1.proxy = s2.proxy) :
    ∀ (fuel page : Nat) (acc : List Product) (st : ScrapeState) (visited : Nat),
      scrapeGo env s1 fuel page acc st visited =
        scrapeGo env s2 fuel page acc st visited := by
  intro fuel
  induction fuel with
  | zero => intro page acc st visited; rfl
  | succ f ih =>
    intro page acc st visited
    simp only [scrapeGo, hph, hurl, hproxy]
    simp only [ih]

/-- Claim C10 (confirmed): a request with `page_limit = 0` is accepted (the
model is `Option Int`, no positivity validation) and behaves exactly as no
limit at all — the loop is pointwise identical because the falsy `0` skips
the comparison — while a negative `page_limit` is truthy, trips the guard at
page 1, and stops the crawl immediately with zero pages visited and an empty
result. -/
theorem zero_page_limit_falsy (env : Env) (target : String) (proxy : Option String) :
    (∀ (fuel page : Nat) (acc : List Product) (st : ScrapeState) (visited : Nat),
      scrapeGo env ⟨some 0, proxy, target⟩ fuel page acc st visited =
        scrapeGo env ⟨none, proxy, target⟩ fuel page acc st visited) ∧
    (∀ (l : Int) (st : ScrapeState) (fuel : Nat), l < 0 →
      scrape_catalog env ⟨some l, proxy, target⟩ st (fuel + 1) =
        some ⟨st, 0, .ok []⟩) := by
  constructor
  · intro fuel page acc st visited
    exact scrapeGo_settings_congr env ⟨some 0, proxy, target⟩ ⟨none, proxy, target⟩
      (fun p => by simp [pageLimitHit]) (fun p => rfl) rfl fuel page acc st visited
  · intro l st fuel hl
    have hph : pageLimitHit ⟨some l, proxy, target⟩ 1 = true := by
      simp only [pageLimitHit, Bool.and_eq_true, bne_iff_ne, decide_eq_true_eq]
      constructor
      · omega
      · omega
    simp only [scrape_catalog, scrapeGo, hph, if_true]

/-- Witness for C10: with limit 0 the run equals the no-limit run on the
concrete catalog, and limit -1 stops at once with zero pages. -/
theorem zero_page_limit_falsy_witness :
    scrape_catalog envA ⟨some 0, none, "http://cat"⟩ ⟨[], []⟩ 10 =
      scrape_catalog envA ⟨none, none, "http://cat"⟩ ⟨[], []⟩ 10 ∧
    scrape_catalog envA ⟨some (-1), none, "http://cat"⟩ ⟨[], []⟩ 1 =
      some ⟨⟨[], []⟩, 0, .ok []⟩ :=
  ⟨(zero_page_limit_falsy envA "http://cat" none).1 10 1 [] ⟨[], []⟩ 0,
   (zero_page_limit_falsy envA "http://cat" none).2 (-1) ⟨[], []⟩ 0 (by decide)⟩

end Scraper
